import Mathlib

/-!
Shallow embedding of the generation-and-mutation pipeline of
`src/bin/cli.js` (a NestJS application scaffolding CLI), together with
proofs about the Template Library, Dependency Resolver, Source Patcher
and Orchestrator behaviour described in the specification.

Source text is modelled as `List Char`.  The JavaScript
`String.prototype.replace` call with the non-global regular expression
`kw:\s*\[([\s\S]*?)\]` is modelled by `findMatch` / `replaceArrayBlock`:
the regex engine tries each start position from the left (`findMatch`),
at a position it requires the literal `kw:`, then a greedy run of
whitespace followed by `[` (no backtracking ambiguity since `[` is not
whitespace), then a lazy capture up to the first `]`.
-/

set_option maxRecDepth 100000
set_option maxHeartbeats 1000000

namespace NestGen

/-- Character class of the JavaScript regular-expression `\s`
(also the character set removed by `String.prototype.trim`). -/
def isJsWhitespace (c : Char) : Bool :=
  c.val = 0x20 || c.val = 0x09 || c.val = 0x0A || c.val = 0x0B ||
  c.val = 0x0C || c.val = 0x0D || c.val = 0xA0 || c.val = 0x1680 ||
  (0x2000 ≤ c.val && c.val ≤ 0x200A) ||
  c.val = 0x2028 || c.val = 0x2029 || c.val = 0x202F ||
  c.val = 0x205F || c.val = 0x3000 || c.val = 0xFEFF

/-- Split a list at the first occurrence of the character `c`:
returns the part strictly before and strictly after it. -/
def splitAtFirst (c : Char) : List Char → Option (List Char × List Char)
  | [] => none
  | x :: xs =>
    if x = c then some ([], xs)
    else (splitAtFirst c xs).map fun p => (x :: p.1, p.2)

/-- After the literal `kw:` part of the anchor pattern has been consumed,
match `\s*\[([\s\S]*?)\]` against `rest`: a greedy whitespace run, an
opening bracket, then a lazy capture up to the first closing bracket.
Returns `(whitespace run, capture, remainder after the closing bracket)`. -/
def matchBracketBlock (rest : List Char) : Option (List Char × List Char × List Char) :=
  match rest.dropWhile isJsWhitespace with
  | '[' :: rest₂ =>
    match splitAtFirst ']' rest₂ with
    | some (cap, after) => some (rest.takeWhile isJsWhitespace, cap, after)
    | none => none
  | _ => none

/-- Try to match the anchor pattern `kw:\s*\[([\s\S]*?)\]` at the very
start of `l`. -/
def matchAt (kw l : List Char) : Option (List Char × List Char × List Char) :=
  if (kw ++ [':']).isPrefixOf l then matchBracketBlock (l.drop (kw.length + 1))
  else none

/-- Leftmost match of the anchor pattern in `l`, exactly as the regex
engine finds it: try `matchAt` at each start position from the left.
Returns `(text before the match, whitespace run, capture, remainder)`. -/
def findMatch (kw : List Char) : List Char → Option (List Char × List Char × List Char × List Char)
  | [] => none
  | c :: cs =>
    match matchAt kw (c :: cs) with
    | some (ws, cap, after) => some ([], ws, cap, after)
    | none =>
      match findMatch kw cs with
      | some (pre, ws, cap, after) => some (c :: pre, ws, cap, after)
      | none => none

/-- The Source Patcher's array-block patch:
`content.replace(/kw:\s*\[([\s\S]*?)\]/, "kw: [$1" + ins + "]")`.
When the pattern does not occur, `String.prototype.replace` returns the
input unchanged; otherwise the first match is replaced, the capture `$1`
is kept verbatim, and `ins` is spliced in before the closing bracket. -/
def replaceArrayBlock (kw ins content : List Char) : List Char :=
  match findMatch kw content with
  | none => content
  | some (pre, _, cap, after) =>
    pre ++ kw ++ ':' :: ' ' :: '[' :: (cap ++ ins ++ ']' :: after)

/-- Substring test: does `pat` occur contiguously inside `s`? -/
def containsSub (pat : List Char) : List Char → Bool
  | [] => pat.isEmpty
  | c :: cs => pat.isPrefixOf (c :: cs) || containsSub pat cs

/-- Number of (possibly overlapping) occurrences of `pat` in `l`. -/
def countOccurrences (pat : List Char) : List Char → Nat
  | [] => 0
  | c :: cs => (if pat.isPrefixOf (c :: cs) then 1 else 0) + countOccurrences pat cs

/-! ## Template Library (`getTypeORMConfig`, `getMongooseConfig`,
`getSequelizeConfig`, `createDatabaseConfig`) -/

/-- `database.toLowerCase()`: character-wise lowering (it agrees with the
JavaScript method on the basic-latin database names used here). -/
def jsToLowerCase (s : String) : String :=
  String.mk (s.data.map Char.toLower)

/-- `getTypeORMConfig(database)` from `src/bin/cli.js`. -/
def getTypeORMConfig (database : String) : String :=
  "\nimport \x7b TypeOrmModuleOptions \x7d from \x27@nestjs/typeorm\x27;\n\nexport const databaseConfig: TypeOrmModuleOptions = \x7b\n  type: \x27"
  ++ jsToLowerCase database
  ++ "\x27,\n  host: \x27localhost\x27,\n  port: "
  ++ (if database = "PostgreSQL" then "5432" else "3306")
  ++ ",\n  username: \x27your_username\x27,\n  password: \x27your_password\x27,\n  database: \x27your_database\x27,\n  entities: [\x27dist/**/*.entity\x7b.ts,.js\x7d\x27],\n  synchronize: true, // set to false in production\n\x7d;\n"

/-- `getMongooseConfig()` from `src/bin/cli.js`. -/
def getMongooseConfig : String :=
  "\nexport const databaseConfig = \x7b\n  uri: \x27mongodb://localhost/your_database\x27,\n  useNewUrlParser: true,\n  useUnifiedTopology: true,\n\x7d;\n"

/-- `getSequelizeConfig(database)` from `src/bin/cli.js`. -/
def getSequelizeConfig (database : String) : String :=
  "\nimport \x7b SequelizeModuleOptions \x7d from \x27@nestjs/sequelize\x27;\n\nexport const databaseConfig: SequelizeModuleOptions = \x7b\n  dialect: \x27"
  ++ jsToLowerCase database
  ++ "\x27,\n  host: \x27localhost\x27,\n  port: "
  ++ (if database = "PostgreSQL" then "5432" else "3306")
  ++ ",\n  username: \x27your_username\x27,\n  password: \x27your_password\x27,\n  database: \x27your_database\x27,\n  autoLoadModels: true,\n  synchronize: true, // set to false in production\n\x7d;\n"

/-- The `switch (orm)` of `createDatabaseConfig` in `src/bin/cli.js`:
the text written to `src/config/database.config.ts`
(`configContent` starts out as the empty string). -/
def createDatabaseConfigContent (database orm : String) : String :=
  if orm = "TypeORM" then getTypeORMConfig database
  else if orm = "Mongoose" then getMongooseConfig
  else if orm = "Sequelize" then getSequelizeConfig database
  else ""

/-! ## Dependency Resolver (`getDatabaseDependencies`) -/

/-- The first `switch (orm)` of `getDatabaseDependencies`:
packages pushed for the ORM selection. -/
def ormPackages (orm : String) : List String :=
  if orm = "TypeORM" then ["typeorm", "@nestjs/typeorm"]
  else if orm = "Mongoose" then ["mongoose", "@nestjs/mongoose"]
  else if orm = "Sequelize" then ["sequelize", "@nestjs/sequelize", "sequelize-typescript"]
  else []

/-- The second `switch (database)` of `getDatabaseDependencies`:
the driver package pushed for the database selection (note the source
matches the key `PostgreSQL`, and skips the generic MongoDB driver when
the ORM is Mongoose). -/
def databaseDriverPackages (database orm : String) : List String :=
  if database = "PostgreSQL" then ["pg"]
  else if database = "MongoDB" then (if orm ≠ "Mongoose" then ["mongodb"] else [])
  else if database = "MySQL" then ["mysql2"]
  else []

/-- `getDatabaseDependencies(database, orm)` from `src/bin/cli.js`:
an empty array, the ORM packages pushed first, then the driver package. -/
def getDatabaseDependencies (database orm : String) : List String :=
  ormPackages orm ++ databaseDriverPackages database orm

/-! ## Root-module mutation (`updateAppModuleForDatabase`,
`updateAppModuleForInterceptors`) -/

/-- The `importStatement` chosen by the `switch (orm)` in
`updateAppModuleForDatabase` (empty for an unknown ORM). -/
def ormImportStatement (orm : String) : String :=
  if orm = "TypeORM" then
    "import \x7b TypeOrmModule \x7d from \x27@nestjs/typeorm\x27;\nimport \x7b databaseConfig \x7d from \x27./config/database.config\x27;"
  else if orm = "Mongoose" then
    "import \x7b MongooseModule \x7d from \x27@nestjs/mongoose\x27;\nimport \x7b databaseConfig \x7d from \x27./config/database.config\x27;"
  else if orm = "Sequelize" then
    "import \x7b SequelizeModule \x7d from \x27@nestjs/sequelize\x27;\nimport \x7b databaseConfig \x7d from \x27./config/database.config\x27;"
  else ""

/-- The `moduleImport` chosen by the `switch (orm)` in
`updateAppModuleForDatabase`. -/
def ormModuleImport (orm : String) : String :=
  if orm = "TypeORM" then ",TypeOrmModule.forRoot(databaseConfig),"
  else if orm = "Mongoose" then ",MongooseModule.forRoot(databaseConfig.uri),"
  else if orm = "Sequelize" then ",SequelizeModule.forRoot(databaseConfig),"
  else ""

/-- `updateAppModuleForDatabase(appDir, orm)` from `src/bin/cli.js`,
as a transformation of the `app.module.ts` text: prepend
`importStatement` and a newline, then replace the first
`imports:\s*\[([\s\S]*?)\]` match with
`imports: [$1\n    moduleImport\n  ]`. -/
def updateAppModuleForDatabase (orm : String) (content : List Char) : List Char :=
  replaceArrayBlock "imports".toList
    ("\n    ".toList ++ (ormModuleImport orm).toList ++ "\n  ".toList)
    ((ormImportStatement orm).toList ++ '\n' :: content)

/-- The `importStatement` template literal of
`updateAppModuleForInterceptors`. -/
def interceptorImportStatement : String :=
  "\nimport \x7b APP_INTERCEPTOR \x7d from \x27@nestjs/core\x27;\nimport \x7b ResponseInterceptor \x7d from \x27./common/interceptors/response/response.interceptor\x27;\nimport \x7b ErrorInterceptor \x7d from \x27./common/interceptors/error/error.interceptor\x27;"

/-- The `providerStatements` template literal of
`updateAppModuleForInterceptors`: the two interceptor provider
registrations spliced into the `providers` array by one patch. -/
def providerStatements : String :=
  ",\n    \x7b\n      provide: APP_INTERCEPTOR,\n      useClass: ResponseInterceptor,\n    \x7d,\n    \x7b\n      provide: APP_INTERCEPTOR,\n      useClass: ErrorInterceptor,\n    \x7d,"

/-- `updateAppModuleForInterceptors(appDir)` from `src/bin/cli.js`,
as a transformation of the `app.module.ts` text: prepend
`importStatement` and a newline, then replace the first
`providers:\s*\[([\s\S]*?)\]` match with
`providers: [$1providerStatements\n  ]`. -/
def updateAppModuleForInterceptors (content : List Char) : List Char :=
  replaceArrayBlock "providers".toList
    (providerStatements.toList ++ "\n  ".toList)
    (interceptorImportStatement.toList ++ '\n' :: content)

/-! ## Interceptor setup (`generateInterceptors`,
`updateResponseInterceptor`, `updateErrorInterceptor`) -/

/-- The fixed body written over `response.interceptor.ts` by
`updateResponseInterceptor`. -/
def responseInterceptorContent : String :=
  "\nimport \x7b Injectable, NestInterceptor, ExecutionContext, CallHandler \x7d from \x27@nestjs/common\x27;\nimport \x7b Observable \x7d from \x27rxjs\x27;\nimport \x7b map \x7d from \x27rxjs/operators\x27;\n\nexport interface Response<T> \x7b\n  statusCode: number;\n  message: string;\n  data: T;\n\x7d\n\n@Injectable()\nexport class ResponseInterceptor<T> implements NestInterceptor<T, Response<T>> \x7b\n  intercept(context: ExecutionContext, next: CallHandler): Observable<Response<T>> \x7b\n    return next.handle().pipe(\n      map(data => (\x7b\n        statusCode: context.switchToHttp().getResponse().statusCode,\n        message: \x27Success\x27,\n        data,\n      \x7d)),\n    );\n  \x7d\n\x7d\n"

/-- The fixed body written over `error.interceptor.ts` by
`updateErrorInterceptor`. -/
def errorInterceptorContent : String :=
  "\nimport \x7b\n  Injectable,\n  NestInterceptor,\n  ExecutionContext,\n  CallHandler,\n  HttpException,\n  HttpStatus,\n\x7d from \x27@nestjs/common\x27;\nimport \x7b Observable, throwError \x7d from \x27rxjs\x27;\nimport \x7b catchError \x7d from \x27rxjs/operators\x27;\n\n@Injectable()\nexport class ErrorInterceptor implements NestInterceptor \x7b\n  intercept(context: ExecutionContext, next: CallHandler): Observable<any> \x7b\n    return next.handle().pipe(\n      catchError(err => \x7b\n        if (err instanceof HttpException) \x7b\n          return throwError(() => err);\n        \x7d\n        return throwError(() => new HttpException(\x7b\n          statusCode: HttpStatus.INTERNAL_SERVER_ERROR,\n          message: \x27Internal server error\x27,\n          error: err.message,\n        \x7d, HttpStatus.INTERNAL_SERVER_ERROR));\n      \x7d),\n    );\n  \x7d\n\x7d\n"

/-- The five awaited operations of `generateInterceptors`, in source
order: the two `nest g interceptor` subprocess calls, the two file
overwrites, then the single root-module patch. -/
inductive IStep where
  | genResponse
  | genError
  | writeResponse
  | writeError
  | patchAppModule
deriving DecidableEq

/-- `generateInterceptors` awaits its operations in exactly this order. -/
def interceptorSteps : List IStep :=
  [IStep.genResponse, IStep.genError, IStep.writeResponse, IStep.writeError,
   IStep.patchAppModule]

/-- Observable project state touched by `generateInterceptors`: the
`app.module.ts` text and the contents of the two interceptor files
(`none` while not yet written by the overwrite steps). -/
structure InterceptorState where
  appModule : List Char
  responseFile : Option String
  errorFile : Option String
deriving DecidableEq

/-- Effect of one successful step of `generateInterceptors` on the
observable state: the scaffolding subprocesses touch neither the root
module nor the final file bodies, the overwrites write the fixed bodies,
and the final step applies the one combined providers patch. -/
def applyIStep (s : InterceptorState) : IStep → InterceptorState
  | IStep.genResponse => s
  | IStep.genError => s
  | IStep.writeResponse => { s with responseFile := some responseInterceptorContent }
  | IStep.writeError => { s with errorFile := some errorInterceptorContent }
  | IStep.patchAppModule =>
      { s with appModule := updateAppModuleForInterceptors s.appModule }

/-- Sequential await-each-step execution with fail-fast propagation:
`oracle st = false` means the step's awaited operation throws, which
aborts the run there with the state reached so far. -/
def runISteps (oracle : IStep → Bool) :
    List IStep → InterceptorState → Except (IStep × InterceptorState) InterceptorState
  | [], s => Except.ok s
  | st :: rest, s =>
    if oracle st then runISteps oracle rest (applyIStep s st)
    else Except.error (st, s)

/-- `generateInterceptors(appDir)` from `src/bin/cli.js` as a run over
its five sequential operations. -/
def generateInterceptors (oracle : IStep → Bool) (s : InterceptorState) :
    Except (IStep × InterceptorState) InterceptorState :=
  runISteps oracle interceptorSteps s

/-- Outcome demanded of a `generateInterceptors` run: on success both
interceptor files hold their fixed bodies and the root module received
exactly the one combined providers patch; on any failure the root module
text is the one from before the run. -/
def interceptorRunOutcome (s : InterceptorState) :
    Except (IStep × InterceptorState) InterceptorState → Prop
  | Except.ok s' =>
      s'.responseFile = some responseInterceptorContent ∧
      s'.errorFile = some errorInterceptorContent ∧
      s'.appModule = updateAppModuleForInterceptors s.appModule
  | Except.error (_, s') => s'.appModule = s.appModule

/-! ## Module generation loop (`generateApp`, `generateModule`) -/

/-- The subprocess command issued by `generateModule` for one module. -/
def moduleGenCommand (m : String) : String :=
  "nest g resource modules/" ++ m

/-- The `for (const module of config.modules)` loop of `generateApp`:
one awaited generation call per module, in array order; a failing call
(`oracle m = false`) throws and ends the loop. Returns the commands
issued, in order, and whether the loop completed. -/
def generateModules (oracle : String → Bool) : List String → List String × Bool
  | [] => ([], true)
  | m :: ms =>
    if oracle m then
      let r := generateModules oracle ms
      (moduleGenCommand m :: r.1, r.2)
    else ([moduleGenCommand m], false)

/-- `config.modules` as `generateApp` receives it: either already an
array, or the raw prompt string (`Array.isArray` distinguishes the two). -/
inductive ModulesInput where
  | arr (ms : List (List Char))
  | raw (s : List Char)

/-- `m.trim()`: strip JavaScript whitespace from both ends. -/
def trimChars (l : List Char) : List Char :=
  (l.dropWhile isJsWhitespace).rdropWhile isJsWhitespace

/-- `config.modules = Array.isArray(config.modules) ? config.modules :
config.modules.split(',').map(m => m.trim()).filter(m => m !== '')`. -/
def normalizeModules : ModulesInput → List (List Char)
  | ModulesInput.arr ms => ms
  | ModulesInput.raw s =>
      ((s.splitOn ',').map trimChars).filter (fun m => !m.isEmpty)

/-- The observable stages of one `generateApp` run. -/
inductive PipelineEvent where
  | baseGen
  | moduleGen (m : List Char)
  | dbSetup
  | interceptorSetup
deriving DecidableEq

/-- Stage order of `generateApp` on the success path: base structure,
one generation call per normalized module in array order, database
setup, then interceptor setup when requested. -/
def generateApp (modules : ModulesInput) (interceptors : Bool) : List PipelineEvent :=
  PipelineEvent.baseGen ::
    ((normalizeModules modules).map PipelineEvent.moduleGen
      ++ PipelineEvent.dbSetup ::
        (if interceptors then [PipelineEvent.interceptorSetup] else []))

/-! ## Soundness of the anchor matcher -/

theorem splitAtFirst_sound (c : Char) :
    ∀ {l a b : List Char}, splitAtFirst c l = some (a, b) → l = a ++ c :: b ∧ c ∉ a := by
  intro l
  induction l with
  | nil => intro a b h; simp [splitAtFirst] at h
  | cons x xs ih =>
    intro a b h
    rw [splitAtFirst] at h
    split at h
    · next hx =>
      simp only [Option.some.injEq, Prod.mk.injEq] at h
      obtain ⟨rfl, rfl⟩ := h
      subst hx
      simp
    · next hx =>
      cases hs : splitAtFirst c xs with
      | none => rw [hs] at h; simp at h
      | some p =>
        obtain ⟨a', b'⟩ := p
        rw [hs] at h
        simp only [Option.map_some', Option.some.injEq, Prod.mk.injEq] at h
        obtain ⟨rfl, rfl⟩ := h
        obtain ⟨h1, h2⟩ := ih hs
        constructor
        · rw [h1]; rfl
        · intro hmem
          rcases List.mem_cons.mp hmem with h | h
          · exact hx h.symm
          · exact h2 h

theorem matchBracketBlock_sound {rest ws cap after : List Char}
    (h : matchBracketBlock rest = some (ws, cap, after)) :
    rest = ws ++ '[' :: (cap ++ ']' :: after) ∧
      (∀ c ∈ ws, isJsWhitespace c) ∧ ']' ∉ cap := by
  rw [matchBracketBlock] at h
  split at h
  · next rest₂ heq =>
    split at h
    · next cap' after' heq₂ =>
      simp only [Option.some.injEq, Prod.mk.injEq] at h
      obtain ⟨rfl, rfl, rfl⟩ := h
      obtain ⟨hsplit, hmem⟩ := splitAtFirst_sound ']' heq₂
      refine ⟨?_, ?_, hmem⟩
      · conv_lhs => rw [← List.takeWhile_append_dropWhile (p := isJsWhitespace) (l := rest)]
        rw [heq, hsplit]
      · intro c hc
        exact List.mem_takeWhile_imp hc
    · exact absurd h (by simp)
  · exact absurd h (by simp)

theorem matchAt_sound {kw l ws cap after : List Char}
    (h : matchAt kw l = some (ws, cap, after)) :
    l = kw ++ ':' :: (ws ++ '[' :: (cap ++ ']' :: after)) ∧
      (∀ c ∈ ws, isJsWhitespace c) ∧ ']' ∉ cap := by
  rw [matchAt] at h
  split at h
  · next hpre =>
    obtain ⟨hrest, hws, hcap⟩ := matchBracketBlock_sound h
    have hp : (kw ++ [':']) <+: l := List.isPrefixOf_iff_prefix.mp hpre
    obtain ⟨t, ht⟩ := hp
    have hdrop : l.drop (kw.length + 1) = t := by
      rw [← ht]
      have hlen : kw.length + 1 = (kw ++ [':']).length := by simp
      rw [hlen, List.drop_left]
    rw [hdrop] at hrest
    refine ⟨?_, hws, hcap⟩
    rw [← ht, hrest]
    simp
  · exact absurd h (by simp)

theorem matchAt_nil (kw : List Char) : matchAt kw [] = none := by
  rw [matchAt]
  have h : ¬ (kw ++ [':']) <+: ([] : List Char) := by
    intro hp
    have := List.prefix_nil.mp hp
    exact absurd this (by simp)
  simp only [List.isPrefixOf_iff_prefix]
  simp [h]

theorem findMatch_sound {kw : List Char} :
    ∀ {l pre ws cap after : List Char},
      findMatch kw l = some (pre, ws, cap, after) →
      l = pre ++ kw ++ ':' :: (ws ++ '[' :: (cap ++ ']' :: after)) ∧
      (∀ c ∈ ws, isJsWhitespace c) ∧ ']' ∉ cap ∧
      ∀ i < pre.length, matchAt kw (l.drop i) = none := by
  intro l
  induction l with
  | nil => intro pre ws cap after h; simp [findMatch] at h
  | cons c cs ih =>
    intro pre ws cap after h
    rw [findMatch] at h
    split at h
    · next ws' cap' after' hm =>
      simp only [Option.some.injEq, Prod.mk.injEq] at h
      obtain ⟨rfl, rfl, rfl, rfl⟩ := h
      obtain ⟨hl, hws, hcap⟩ := matchAt_sound hm
      exact ⟨by simpa using hl, hws, hcap, by simp⟩
    · next hm =>
      split at h
      · next pre' ws' cap' after' hf =>
        simp only [Option.some.injEq, Prod.mk.injEq] at h
        obtain ⟨rfl, rfl, rfl, rfl⟩ := h
        obtain ⟨hl, hws, hcap, hmin⟩ := ih hf
        refine ⟨by rw [hl]; simp, hws, hcap, ?_⟩
        intro i hi
        cases i with
        | zero => exact hm
        | succ j =>
          have hj : j < pre'.length := by simpa using hi
          exact hmin j hj
      · exact absurd h (by simp)

theorem findMatch_cons_eq_none {kw : List Char} {c : Char} {cs : List Char} :
    findMatch kw (c :: cs) = none ↔
      matchAt kw (c :: cs) = none ∧ findMatch kw cs = none := by
  rw [findMatch]
  cases hm : matchAt kw (c :: cs) with
  | some r => obtain ⟨ws, cap, after⟩ := r; simp
  | none =>
    cases hf : findMatch kw cs with
    | some r => obtain ⟨pre, ws, cap, after⟩ := r; simp
    | none => simp

theorem findMatch_eq_none_iff {kw : List Char} :
    ∀ {l : List Char}, findMatch kw l = none ↔ ∀ i, matchAt kw (l.drop i) = none
  | [] => by simp [findMatch, matchAt_nil]
  | c :: cs => by
    rw [findMatch_cons_eq_none, findMatch_eq_none_iff (l := cs)]
    constructor
    · rintro ⟨h0, hrec⟩ i
      cases i with
      | zero => exact h0
      | succ j => exact hrec j
    · intro h
      exact ⟨h 0, fun j => h (j + 1)⟩

theorem findMatch_append_none {kw : List Char} (t : List Char) (c : Char)
    (hc : c ∉ kw ++ [':'])
    (hinf : ¬ (kw ++ [':']) <:+: (t ++ [c]))
    {content : List Char} (hnone : findMatch kw content = none) :
    findMatch kw ((t ++ [c]) ++ content) = none := by
  rw [findMatch_eq_none_iff]
  intro i
  by_cases hi : i < (t ++ [c]).length
  · have hile : i ≤ t.length := by
      have : (t ++ [c]).length = t.length + 1 := by simp
      omega
    have hdrop : ((t ++ [c]) ++ content).drop i = (t.drop i ++ [c]) ++ content := by
      rw [List.drop_append_eq_append_drop]
      have h0 : i - (t ++ [c]).length = 0 := by
        have : (t ++ [c]).length = t.length + 1 := by simp
        omega
      rw [h0, List.drop_zero]
      congr 1
      rw [List.drop_append_eq_append_drop]
      have h1 : i - t.length = 0 := by omega
      rw [h1, List.drop_zero]
    have hnp : ¬ (kw ++ [':']) <+: ((t.drop i ++ [c]) ++ content) := by
      intro hp
      have hd : (t.drop i ++ [c]) <+: ((t.drop i ++ [c]) ++ content) :=
        List.prefix_append _ _
      rcases List.prefix_or_prefix_of_prefix hp hd with h1 | h2
      · apply hinf
        obtain ⟨v, hv⟩ := h1
        have hsuf : (t.drop i ++ [c]) <:+ (t ++ [c]) := by
          obtain ⟨u, hu⟩ := List.drop_suffix i t
          exact ⟨u, by rw [← List.append_assoc, hu]⟩
        obtain ⟨u, hu⟩ := hsuf
        exact ⟨u, v, by rw [← hu, ← hv, List.append_assoc]⟩
      · apply hc
        have hcmem : c ∈ t.drop i ++ [c] := by simp
        exact h2.mem hcmem
    have hb : ¬ ((kw ++ [':']).isPrefixOf ((t.drop i ++ [c]) ++ content) = true) := by
      intro habs
      exact hnp (List.isPrefixOf_iff_prefix.mp habs)
    rw [hdrop, matchAt, if_neg hb]
  · have hle : (t ++ [c]).length ≤ i := Nat.le_of_not_lt hi
    have hdrop : ((t ++ [c]) ++ content).drop i = content.drop (i - (t ++ [c]).length) := by
      rw [List.drop_append_eq_append_drop]
      rw [List.drop_eq_nil_of_le hle, List.nil_append]
    rw [hdrop]
    exact findMatch_eq_none_iff.mp hnone _

theorem containsSub_eq_true_iff {pat : List Char} :
    ∀ {l : List Char}, containsSub pat l = true ↔ pat <:+: l
  | [] => by
    cases pat <;> simp [containsSub, List.infix_nil]
  | c :: cs => by
    rw [containsSub, Bool.or_eq_true, List.isPrefixOf_iff_prefix,
      containsSub_eq_true_iff (l := cs), List.infix_cons_iff]

theorem dropWhile_prefix_of_head (p : Char → Bool) (b r : List Char)
    (hpre : r <+: b) (hb : ∀ h : b ≠ [], p (b.head h) = false) :
    List.dropWhile p r = r := by
  cases r with
  | nil => simp
  | cons x xs =>
    obtain ⟨t, ht⟩ := hpre
    subst ht
    have hbne : x :: xs ++ t ≠ [] := by simp
    have hhead := hb hbne
    have hx : p x = false := by simpa using hhead
    simp [List.dropWhile_cons, hx]

theorem trimChars_idem (l : List Char) : trimChars (trimChars l) = trimChars l := by
  rw [trimChars, trimChars]
  have h1 := dropWhile_prefix_of_head isJsWhitespace (List.dropWhile isJsWhitespace l)
      ((List.dropWhile isJsWhitespace l).rdropWhile isJsWhitespace)
      (List.rdropWhile_prefix _ _)
      (fun h => List.head_dropWhile_not isJsWhitespace l h)
  rw [h1, List.rdropWhile_idempotent]

/-! ## Claims -/

/-- Claim C1, evaluated at the failing input: the spec says the rendered
database configuration contains port 5432 for the Postgres choice, but
the templates compare the database against the spelling `PostgreSQL`
while the CLI's choice list offers `Postgres`, so for the Postgres choice
both the TypeORM and the Sequelize template render port 3306 and the
text 5432 appears nowhere; the port 5432 only appears for the spelling
`PostgreSQL`, which the prompt never produces. -/
theorem C1_postgres_port_code_bug :
    containsSub "port: 3306,".toList (getTypeORMConfig "Postgres").toList = true ∧
    containsSub "5432".toList (getTypeORMConfig "Postgres").toList = false ∧
    containsSub "port: 3306,".toList (getSequelizeConfig "Postgres").toList = true ∧
    containsSub "5432".toList (getSequelizeConfig "Postgres").toList = false ∧
    containsSub "port: 5432,".toList (getTypeORMConfig "PostgreSQL").toList = true := by
  refine ⟨?_, ?_, ?_, ?_, ?_⟩ <;> decide

/-- Claim C2, evaluated at the failing input: the spec says the database
selection contributes a driver package, and that for database Postgres
and ORM TypeORM the resolved set contains the Postgres driver `pg`; the
resolver's `switch` matches the key `PostgreSQL`, which the CLI's choice
`Postgres` never equals, so the resolved list for (`Postgres`, `TypeORM`)
is just the two TypeORM packages without `pg`, while the unreachable
spelling `PostgreSQL` would have received it. -/
theorem C2_postgres_driver_code_bug :
    getDatabaseDependencies "Postgres" "TypeORM" = ["typeorm", "@nestjs/typeorm"] ∧
    "pg" ∉ getDatabaseDependencies "Postgres" "TypeORM" ∧
    getDatabaseDependencies "PostgreSQL" "TypeORM" = ["typeorm", "@nestjs/typeorm", "pg"] := by
  refine ⟨rfl, by decide, rfl⟩

/-- Claim C3: `getDatabaseDependencies (MongoDB, Mongoose)` excludes the
generic `mongodb` driver, `(MongoDB, TypeORM)` includes it, and for every
pair from the CLI's choice lists the resolved list has no duplicates and
lists every ORM package strictly before any database driver package. -/
theorem C3_dependency_set_shape
    (database orm : String)
    (hdb : database ∈ ["Postgres", "MongoDB", "MySQL"])
    (horm : orm ∈ ["TypeORM", "Mongoose", "Sequelize"]) :
    getDatabaseDependencies "MongoDB" "Mongoose" = ["mongoose", "@nestjs/mongoose"] ∧
    "mongodb" ∉ getDatabaseDependencies "MongoDB" "Mongoose" ∧
    "mongodb" ∈ getDatabaseDependencies "MongoDB" "TypeORM" ∧
    (getDatabaseDependencies database orm).Nodup ∧
    (∀ p ∈ ormPackages orm, ∀ q ∈ databaseDriverPackages database orm,
      (getDatabaseDependencies database orm).indexOf p
        < (getDatabaseDependencies database orm).indexOf q) := by
  simp only [List.mem_cons, List.not_mem_nil, or_false] at hdb horm
  rcases hdb with rfl | rfl | rfl <;> rcases horm with rfl | rfl | rfl <;> decide

/-- Witness for C3 at the concrete pair (MongoDB, TypeORM). -/
theorem C3_dependency_set_shape_witness :
    (getDatabaseDependencies "MongoDB" "TypeORM").Nodup ∧
    "mongodb" ∈ getDatabaseDependencies "MongoDB" "TypeORM" :=
  ⟨(C3_dependency_set_shape "MongoDB" "TypeORM" (by decide) (by decide)).2.2.2.1,
   (C3_dependency_set_shape "MongoDB" "TypeORM" (by decide) (by decide)).2.2.1⟩

/-- Claim C8: for ORM Mongoose the rendered configuration (whatever the
database choice, since `getMongooseConfig` takes no database argument)
contains a `uri:` field and contains neither a `host:` nor a `port:`
field. -/
theorem C8_mongoose_uri_shape (database : String) :
    containsSub "uri:".toList (createDatabaseConfigContent database "Mongoose").toList = true ∧
    containsSub "host:".toList (createDatabaseConfigContent database "Mongoose").toList = false ∧
    containsSub "port:".toList (createDatabaseConfigContent database "Mongoose").toList = false := by
  have h : createDatabaseConfigContent database "Mongoose" = getMongooseConfig := by
    rw [createDatabaseConfigContent, if_neg (by decide), if_pos rfl]
  rw [h]
  refine ⟨?_, ?_, ?_⟩ <;> decide

/-- Claim C4 counterexample: for a root-module source with no
`providers: [ ... ]` block, the patch operation does not fail with any
`AnchorNotFound` error and the written output differs from the input:
the operation completes, returning the source with the interceptor
imports prepended (so "output equals input or no output" is violated,
and no error is raised anywhere). -/
theorem C4_anchor_not_found_counterexample :
    updateAppModuleForInterceptors "export class AppModule".toList
      ≠ "export class AppModule".toList ∧
    updateAppModuleForInterceptors "export class AppModule".toList
      = interceptorImportStatement.toList ++ '\n' :: "export class AppModule".toList := by
  constructor
  · decide
  · decide

/-- Claim C4 (amended): when the source has no `kw: [ ... ]` block the
array-block patch is a silent no-operation, not a failure: the bare
replace returns its input unchanged, and the interceptor module update
still rewrites the file, equal to the input with only the import
statement prepended. -/
theorem C4_no_anchor_silent_noop
    (kw ins content : List Char)
    (hkw : findMatch kw content = none)
    (hprov : findMatch "providers".toList content = none) :
    replaceArrayBlock kw ins content = content ∧
    updateAppModuleForInterceptors content
      = interceptorImportStatement.toList ++ '\n' :: content := by
  constructor
  · rw [replaceArrayBlock, hkw]
  · rw [updateAppModuleForInterceptors]
    have heq : interceptorImportStatement.toList ++ '\n' :: content
        = (interceptorImportStatement.toList ++ ['\n']) ++ content := by simp
    have hinf : ¬ ("providers".toList ++ [':'])
        <:+: (interceptorImportStatement.toList ++ ['\n']) := by decide
    have hnone := findMatch_append_none interceptorImportStatement.toList '\n'
      (by decide) hinf hprov
    rw [replaceArrayBlock, heq, hnone]

/-- Witness for C4 (amended) at a concrete anchorless source. -/
theorem C4_no_anchor_silent_noop_witness :
    replaceArrayBlock "imports".toList ",X,".toList "const a = 1;".toList
      = "const a = 1;".toList :=
  (C4_no_anchor_silent_noop "imports".toList ",X,".toList "const a = 1;".toList
    (by decide) (by decide)).1

/-- Claim C5 counterexample: on the source `imports:[]` (a
keyword-labelled array block with no whitespace before the bracket) the
patch output is not the input with the insertion placed before the
block's closing bracket: the whitespace between the keyword's colon and
the opening bracket is additionally rewritten to a single space. -/
theorem C5_whitespace_not_preserved_counterexample :
    replaceArrayBlock "imports".toList ",X,".toList "imports:[]".toList
      = "imports: [,X,]".toList ∧
    "imports: [,X,]".toList ≠ "imports:[,X,]".toList := by
  constructor
  · decide
  · decide

/-- Claim C5 (amended): whenever the anchor matcher finds a block, the
input decomposes as `pre ++ kw ++ ":" ++ ws ++ "[" ++ entries ++ "]" ++
rest` and the output is `pre ++ kw ++ ": [" ++ entries ++ ins ++ "]" ++
rest`: every character of the block's entries is preserved verbatim, the
inserted text sits immediately before the block's closing bracket, the
match is the first occurrence in the file (no earlier start position
matches), and the only other difference is the keyword-to-bracket
whitespace being rewritten to one single space — so when `ws` is already
a single space the insertion is the only difference. -/
theorem C5_patch_first_block_frame
    (kw ins content pre ws cap after : List Char)
    (h : findMatch kw content = some (pre, ws, cap, after)) :
    content = pre ++ kw ++ ':' :: (ws ++ '[' :: (cap ++ ']' :: after)) ∧
    replaceArrayBlock kw ins content
      = pre ++ kw ++ ':' :: ' ' :: '[' :: (cap ++ ins ++ ']' :: after) ∧
    ']' ∉ cap ∧
    (∀ c ∈ ws, isJsWhitespace c) ∧
    (∀ i < pre.length, matchAt kw (content.drop i) = none) := by
  obtain ⟨hl, hws, hcap, hmin⟩ := findMatch_sound h
  refine ⟨hl, ?_, hcap, hws, hmin⟩
  rw [replaceArrayBlock, h]

/-- Witness for C5 (amended) at a concrete source with one block. -/
theorem C5_patch_first_block_frame_witness :
    replaceArrayBlock "imports".toList ",X,".toList "x imports: [A, B] y".toList
      = "x ".toList ++ "imports".toList ++ ':' :: ' ' :: '[' ::
          ("A, B".toList ++ ",X,".toList ++ ']' :: " y".toList) :=
  (C5_patch_first_block_frame "imports".toList ",X,".toList "x imports: [A, B] y".toList
    "x ".toList [' '] "A, B".toList " y".toList (by decide)).2.1

/-- Claim C9: `updateAppModuleForDatabase` prepends the ORM import
statement and a newline before looking for the imports-array anchor, so
when the source has no `imports: [` block the file text still becomes
the import statement, a newline, then the original content unchanged
(the prepended import text itself can never create an `imports:` anchor). -/
theorem C9_import_prepended_without_anchor
    (orm : String) (content : List Char)
    (h : findMatch "imports".toList content = none) :
    updateAppModuleForDatabase orm content
      = (ormImportStatement orm).toList ++ '\n' :: content := by
  rw [updateAppModuleForDatabase]
  have heq : (ormImportStatement orm).toList ++ '\n' :: content
      = ((ormImportStatement orm).toList ++ ['\n']) ++ content := by simp
  have hinf : ¬ ("imports".toList ++ [':'])
      <:+: ((ormImportStatement orm).toList ++ ['\n']) := by
    rw [ormImportStatement]
    split_ifs <;> decide
  have hnone := findMatch_append_none (ormImportStatement orm).toList '\n'
    (by decide) hinf h
  rw [replaceArrayBlock, heq, hnone]

/-- Witness for C9 at a concrete anchorless root module and ORM TypeORM. -/
theorem C9_import_prepended_without_anchor_witness :
    updateAppModuleForDatabase "TypeORM" "export class AppModule x".toList
      = (ormImportStatement "TypeORM").toList ++ '\n' :: "export class AppModule x".toList :=
  C9_import_prepended_without_anchor "TypeORM" "export class AppModule x".toList (by decide)

/-- Claim C6: for every failure pattern and starting state, a
`generateInterceptors` run either succeeds — and then both interceptor
files hold their fixed bodies and the root module received exactly the
one combined providers patch — or fails, and then the root module text
is exactly the one from before the run (in particular a failure at the
second `nest g interceptor` step aborts before any providers-array
mutation); the single combined patch text carries exactly two
`provide: APP_INTERCEPTOR` registrations. -/
theorem C6_interceptor_setup_atomic :
    (∀ (oracle : IStep → Bool) (s : InterceptorState),
      interceptorRunOutcome s (generateInterceptors oracle s)) ∧
    countOccurrences "provide: APP_INTERCEPTOR,".toList providerStatements.toList = 2 ∧
    (∀ s : InterceptorState,
      generateInterceptors
        (fun st => match st with | IStep.genError => false | _ => true) s
        = Except.error (IStep.genError, s)) := by
  refine ⟨?_, by decide, ?_⟩
  · intro oracle s
    cases h1 : oracle IStep.genResponse <;>
    cases h2 : oracle IStep.genError <;>
    cases h3 : oracle IStep.writeResponse <;>
    cases h4 : oracle IStep.writeError <;>
    cases h5 : oracle IStep.patchAppModule <;>
    simp [generateInterceptors, interceptorSteps, runISteps, applyIStep,
      interceptorRunOutcome, h1, h2, h3, h4, h5]
  · intro s
    rfl

/-- Claim C7: the module loop of `generateApp` issues one generation
call per module, in array order; with modules `["users", "orders"]` the
issued commands are exactly the two commands in that order when the
first call succeeds, and only the first command when it fails (the
second is never attempted); the loop completes only when both succeed,
and in general the issued command list is an order-preserving prefix of
the per-module commands. -/
theorem C7_sequential_module_generation (oracle : String → Bool) :
    (generateModules oracle ["users", "orders"]).1
      = (if oracle "users" then [moduleGenCommand "users", moduleGenCommand "orders"]
         else [moduleGenCommand "users"]) ∧
    (generateModules oracle ["users", "orders"]).2
      = (oracle "users" && oracle "orders") ∧
    ∀ ms : List String, (generateModules oracle ms).1 <+: ms.map moduleGenCommand := by
  refine ⟨?_, ?_, ?_⟩
  · cases hu : oracle "users" <;> cases ho : oracle "orders" <;>
      simp [generateModules, hu, ho]
  · cases hu : oracle "users" <;> cases ho : oracle "orders" <;>
      simp [generateModules, hu, ho]
  · intro ms
    induction ms with
    | nil => simp [generateModules]
    | cons m ms ih =>
      rw [generateModules, List.map_cons]
      cases hm : oracle m with
      | false => simp
      | true =>
        simp only [if_pos rfl]
        exact List.cons_prefix_cons.mpr ⟨rfl, ih⟩

/-- Claim C10: when the normalized module list is empty the pipeline
trace has no module-generation event yet still reaches the database
setup stage; raw (non-array) module input is normalized by splitting on
commas (the split pieces reassemble to the original string with commas),
trimming each piece, and dropping empty entries, so every normalized
entry is non-empty and trim-stable. -/
theorem C10_empty_modules_normalization
    (inp : ModulesInput) (interceptors : Bool) (s : List Char)
    (h : normalizeModules inp = []) :
    (∀ m, PipelineEvent.moduleGen m ∉ generateApp inp interceptors) ∧
    PipelineEvent.dbSetup ∈ generateApp inp interceptors ∧
    (∀ m ∈ normalizeModules (ModulesInput.raw s), m ≠ [] ∧ trimChars m = m) ∧
    List.intercalate [','] (s.splitOn ',') = s := by
  refine ⟨?_, ?_, ?_, by apply List.intercalate_splitOn⟩
  · intro m
    rw [generateApp, h]
    cases interceptors <;> simp
  · rw [generateApp, h]
    cases interceptors <;> simp
  · intro m hm
    simp only [normalizeModules, List.mem_filter, List.mem_map] at hm
    obtain ⟨⟨piece, _, hpiece⟩, hne⟩ := hm
    constructor
    · intro habs
      rw [habs] at hne
      simp at hne
    · rw [← hpiece]
      exact trimChars_idem piece

/-- Witness for C10: empty raw input normalizes to no modules, and the
normalization facts hold at a concrete raw string. -/
theorem C10_empty_modules_normalization_witness :
    PipelineEvent.dbSetup ∈ generateApp (ModulesInput.raw "".toList) false ∧
    (∀ m ∈ normalizeModules (ModulesInput.raw " users , , orders ".toList),
      m ≠ [] ∧ trimChars m = m) :=
  ⟨(C10_empty_modules_normalization (ModulesInput.raw "".toList) false
      " users , , orders ".toList (by decide)).2.1,
   (C10_empty_modules_normalization (ModulesInput.raw "".toList) false
      " users , , orders ".toList (by decide)).2.2.1⟩

end NestGen
